import Mathlib

/-!
# CRUD service over one collection of `Object` documents

A shallow embedding of `main.go`: the `Object` record, the five HTTP handlers
(`createObject`, `getObject`, `getAllObjects`, `updateObject`, `deleteObject`),
the helpers `writeError` and `getObjectByID`, and the three library surfaces the
handlers are written against:

* the document collection (`FindOne`, `InsertOne`, `UpdateOne`, `DeleteOne`,
  `Find` and its cursor), as a list of documents in natural order together with a
  `Driver` record saying which calls report a driver error;
* `http.ResponseWriter` (`Header().Set`, `WriteHeader`, `Write`);
* `encoding/json` output for `Object`, `[]Object` and `map[string]string`.
-/

namespace Crud

/-! ## Data model -/

/-- The record `Object` of `main.go`: `ID` is a Go `string`, `Name` and
`Description` are `*string`, with `none` standing for the nil pointer. -/
structure Object where
  ID : String
  Name : Option String
  Description : Option String
deriving DecidableEq

/-- The documents of the collection behind the package variable `Collection`, in
natural (insertion) order. A document is the BSON image of an `Object`: the fields
`id`, `name` and `description`, a nil pointer stored as null. The store's own
`_id` field is left out: no handler reads or filters on it. -/
abbrev Collection := List Object

/-- Error values a store call can return: `mongo.ErrNoDocuments`, or any other
error, kept as its message. -/
inductive Err where
  | ErrNoDocuments
  | other (msg : String)
deriving DecidableEq

/-- The method `Error()` of an error value. -/
def Err.Error : Err → String
  | .ErrNoDocuments => "mongo: no documents in result"
  | .other msg => msg

/-- The driver errors (connection loss, write failure, undecodable reply) of one
request: for each store call the handlers make, `none` when the call goes through
and `some msg` when it returns an error with that message and has no effect.
`cursorDecode = some (i, msg)` makes `cursor.Decode` fail on the document at scan
position `i`; `cursorErr = some (i, msg)` makes `cursor.Next` stop after `i`
documents with `cursor.Err()` reporting `msg`. -/
structure Driver where
  FindOne : Option String
  InsertOne : Option String
  UpdateOne : Option String
  DeleteOne : Option String
  Find : Option String
  cursorDecode : Option (Nat × String)
  cursorErr : Option (Nat × String)
deriving DecidableEq

/-- A driver none of whose calls reports an error. -/
def Driver.healthy : Driver :=
  { FindOne := none, InsertOne := none, UpdateOne := none, DeleteOne := none,
    Find := none, cursorDecode := none, cursorErr := none }

/-! ## The collection calls -/

/-- The call `Collection.FindOne(ctx, bson.M{"id": id}).Decode(&obj)`: the first
document whose `id` equals the filter value, `ErrNoDocuments` when there is none. -/
def FindOne (d : Driver) (c : Collection) (id : String) : Except Err Object :=
  match d.FindOne with
  | some msg => .error (.other msg)
  | none =>
    match c.find? (fun o => o.ID == id) with
    | some o => .ok o
    | none => .error .ErrNoDocuments

/-- The call `Collection.InsertOne(ctx, object)`: one more document, last in
natural order. -/
def InsertOne (d : Driver) (c : Collection) (o : Object) : Except Err Collection :=
  match d.InsertOne with
  | some msg => .error (.other msg)
  | none => .ok (c ++ [o])

/-- The effect of `$set` with `name` and `description` on the first document
matching `bson.M{"id": id}`; no document matching, nothing changes. -/
def setFirst (id : String) (name description : Option String) : Collection → Collection
  | [] => []
  | o :: rest =>
    if o.ID = id then { o with Name := name, Description := description } :: rest
    else o :: setFirst id name description rest

/-- The call `Collection.UpdateOne(ctx, filter, update)` of `updateObject`. -/
def UpdateOne (d : Driver) (c : Collection) (id : String) (name description : Option String) :
    Except Err Collection :=
  match d.UpdateOne with
  | some msg => .error (.other msg)
  | none => .ok (setFirst id name description c)

/-- The effect of deleting the first document matching `bson.M{"id": id}`. -/
def deleteFirst (id : String) : Collection → Collection
  | [] => []
  | o :: rest => if o.ID = id then rest else o :: deleteFirst id rest

/-- The call `Collection.DeleteOne(ctx, filter)` of `deleteObject`. -/
def DeleteOne (d : Driver) (c : Collection) (id : String) : Except Err Collection :=
  match d.DeleteOne with
  | some msg => .error (.other msg)
  | none => .ok (deleteFirst id c)

/-- A Go slice of objects: `none` is the nil slice, which `encoding/json` writes
as `null`; `some []` is an empty slice that is not nil. -/
abbrev Slice := Option (List Object)

/-- The Go expression `make([]Object, 0)`. -/
def Slice.make0 : Slice := some []

/-- The Go builtin `append` with one element. -/
def Slice.append : Slice → Object → Slice
  | none, o => some [o]
  | some l, o => some (l ++ [o])

/-! ## encoding/json output -/

/-- A hexadecimal digit in lower case: `0` to `9` from code 48 on, `a` to `f` from
code 97 on. -/
def hexDigit (n : Nat) : Char :=
  if n < 10 then Char.ofNat (48 + n)
  else if n < 16 then Char.ofNat (87 + n)
  else '0'

/-- The text `encoding/json` writes for one character of a string, HTML escaping
on (the default of `Marshal` and of `Encoder`): quote and backslash get a
backslash, control characters and `<`, `>`, `&` a short or a `u00XX` escape, the
line separators U+2028 and U+2029 a `u202X` escape, all else is copied. -/
def escapeRune (ch : Char) : List Char :=
  let n := ch.toNat
  let bs := Char.ofNat 92
  if n = 34 ∨ n = 92 then [bs, ch]
  else if n = 8 then [bs, 'b']
  else if n = 12 then [bs, 'f']
  else if n = 10 then [bs, 'n']
  else if n = 13 then [bs, 'r']
  else if n = 9 then [bs, 't']
  else if n < 32 ∨ n = 60 ∨ n = 62 ∨ n = 38 then
    [bs, 'u', '0', '0', hexDigit (n / 16), hexDigit (n % 16)]
  else if n = 8232 ∨ n = 8233 then [bs, 'u', '2', '0', '2', hexDigit (n % 16)]
  else [ch]

/-- A Go string as a JSON string literal. -/
def quote (s : String) : String :=
  String.mk ([Char.ofNat 34] ++ s.data.flatMap escapeRune ++ [Char.ofNat 34])

/-- The members `encoding/json` writes for an `Object`: all three fields carry
`omitempty`, so an empty `ID` and a nil `Name` or `Description` are left out. -/
def members (o : Object) : List String :=
  (if o.ID = "" then [] else ["\"id\":" ++ quote o.ID]) ++
  (match o.Name with
   | none => []
   | some s => ["\"name\":" ++ quote s]) ++
  (match o.Description with
   | none => []
   | some s => ["\"description\":" ++ quote s])

/-- The JSON text of an `Object`. -/
def marshalObject (o : Object) : String :=
  "\x7b" ++ ",".intercalate (members o) ++ "\x7d"

/-- The JSON text of a `[]Object`: `null` for the nil slice. -/
def marshalSlice : Slice → String
  | none => "null"
  | some l => "[" ++ ",".intercalate (l.map marshalObject) ++ "]"

/-- The JSON text of `map[string]string{"error": s}`. -/
def marshalError (s : String) : String :=
  "\x7b\"error\":" ++ quote s ++ "\x7d"

/-! ## http.ResponseWriter -/

/-- The state of an `http.ResponseWriter`: the header map the handler edits, whether
the status line has been written, the status code, the headers that went out with
the status line, and the body written so far. Headers the server adds on its own
(date, length, a sniffed content type) are not part of it. -/
structure ResponseWriter where
  header : List (String × String)
  wroteHeader : Bool
  status : Nat
  sentHeader : List (String × String)
  body : String
deriving DecidableEq

/-- A writer as a handler receives it (`httptest.NewRecorder()`): nothing written,
status 200 unless the handler says otherwise. -/
def ResponseWriter.new : ResponseWriter :=
  { header := [], wroteHeader := false, status := 200, sentHeader := [], body := "" }

/-- The call `w.Header().Set(key, value)`: edits the header map only; what was sent
with the status line stays as it was. -/
def ResponseWriter.Set (w : ResponseWriter) (key value : String) : ResponseWriter :=
  { w with header := (key, value) :: w.header.filter (fun kv => kv.1 != key) }

/-- The call `w.WriteHeader(status)`: the first call fixes the status code and sends
the header map as it stands; later calls do nothing. -/
def ResponseWriter.WriteHeader (w : ResponseWriter) (status : Nat) : ResponseWriter :=
  if w.wroteHeader then w
  else { w with wroteHeader := true, status := status, sentHeader := w.header }

/-- The call `w.Write(b)`: writes the status line with 200 first when it has not
been written, then adds `b` to the body. -/
def ResponseWriter.Write (w : ResponseWriter) (b : String) : ResponseWriter :=
  let w1 := if w.wroteHeader then w else w.WriteHeader 200
  { w1 with body := w1.body ++ b }

/-- The call `json.NewEncoder(w).Encode(object)`: the JSON text and a line feed. -/
def encodeObject (w : ResponseWriter) (o : Object) : ResponseWriter :=
  w.Write (marshalObject o ++ "\n")

/-- The call `json.NewEncoder(w).Encode(objects)`. -/
def encodeSlice (w : ResponseWriter) (s : Slice) : ResponseWriter :=
  w.Write (marshalSlice s ++ "\n")

/-! ## Identifiers -/

/-- The type `primitive.ObjectID`: twelve bytes. -/
structure ObjectID where
  bytes : List (Fin 256)
  size : bytes.length = 12

/-- The method `Hex()`: two hexadecimal digits per byte. -/
def ObjectID.Hex (oid : ObjectID) : String :=
  String.mk (oid.bytes.flatMap fun b => [hexDigit (b.val / 16), hexDigit (b.val % 16)])

/-- The outcome of `json.NewDecoder(r.Body).Decode(&object)` on a request body: the
decoded `Object`, or the decoder's error message. -/
abbrev Body := Except String Object

/-! ## The helpers and handlers of main.go -/

/-- The function `writeError` with its format already applied to its arguments:
`s` is `fmt.Sprintf(format, a...)`. -/
def writeError (w : ResponseWriter) (status : Nat) (s : String) : ResponseWriter :=
  let w1 := w.WriteHeader status
  let w2 := w1.Set "Content-Type" "application/json"
  w2.Write (marshalError s)

/-- The function `getObjectByID`. -/
def getObjectByID (d : Driver) (c : Collection) (id : String) : Except Err Object :=
  match FindOne d c id with
  | .error err => .error err
  | .ok obj => .ok obj

/-- The handler `createObject`; `oid` is the value `primitive.NewObjectID()` returns. -/
def createObject (d : Driver) (oid : ObjectID) (body : Body) (c : Collection)
    (w : ResponseWriter) : ResponseWriter × Collection :=
  match body with
  | .error err => (writeError w 500 ("object creation failed: " ++ err), c)
  | .ok decoded =>
    let object := { decoded with ID := oid.Hex }
    match InsertOne d c object with
    | .error err => (writeError w 500 ("object creation failed: " ++ err.Error), c)
    | .ok c1 =>
      let w1 := w.Set "Content-Type" "application/json"
      (encodeObject w1 object, c1)

/-- The handler `getObject`; `objectID` is the path parameter `id`. -/
def getObject (d : Driver) (objectID : String) (c : Collection) (w : ResponseWriter) :
    ResponseWriter × Collection :=
  match getObjectByID d c objectID with
  | .error err =>
    if err = .ErrNoDocuments then (writeError w 404 "object not found", c)
    else (writeError w 500 "object extracrion failed", c)
  | .ok object =>
    let w1 := w.Set "Content-Type" "application/json"
    (encodeObject w1 object, c)

/-- The handler `updateObject`. -/
def updateObject (d : Driver) (objectID : String) (body : Body) (c : Collection)
    (w : ResponseWriter) : ResponseWriter × Collection :=
  match getObjectByID d c objectID with
  | .error err =>
    if err = .ErrNoDocuments then (writeError w 404 "object for update not found", c)
    else (writeError w 500 "update failed", c)
  | .ok currentObj =>
    match body with
    | .error err => (writeError w 500 ("object updating failed: " ++ err), c)
    | .ok decoded =>
      let updateObj1 :=
        if decoded.Name = none then { decoded with Name := currentObj.Name } else decoded
      let updateObj :=
        if updateObj1.Description = none then
          { updateObj1 with Description := currentObj.Description }
        else updateObj1
      match UpdateOne d c objectID updateObj.Name updateObj.Description with
      | .error err => (writeError w 500 ("object updating failed: " ++ err.Error), c)
      | .ok c1 =>
        let w1 := w.Set "Content-Type" "application/json"
        (encodeObject w1 updateObj, c1)

/-- The handler `deleteObject`. -/
def deleteObject (d : Driver) (objectID : String) (c : Collection) (w : ResponseWriter) :
    ResponseWriter × Collection :=
  match getObjectByID d c objectID with
  | .error err =>
    if err = .ErrNoDocuments then (writeError w 404 "object for deleting not found", c)
    else (writeError w 500 "deletion failed", c)
  | .ok _ =>
    match DeleteOne d c objectID with
    | .error err => (writeError w 500 ("deletion failed: " ++ err.Error), c)
    | .ok c1 =>
      let w1 := w.WriteHeader 200
      (w1.Write "object deleted successfully", c1)

/-- The loop of `getAllObjects` over the cursor: `i` documents delivered so far,
`pending` still to come, `objects` the slice built so far. The result is the slice
once `cursor.Next` has returned false and `cursor.Err()` is nil, or the message of
the error that ended the scan. -/
def scanLoop (d : Driver) : Nat → List Object → Slice → Except String Slice
  | i, [], objects =>
    match d.cursorErr with
    | some (k, msg) => if k = i then .error msg else .ok objects
    | none => .ok objects
  | i, o :: pending, objects =>
    if (d.cursorErr.map Prod.fst) = some i then
      .error ((d.cursorErr.map Prod.snd).getD "")
    else if (d.cursorDecode.map Prod.fst) = some i then
      .error ((d.cursorDecode.map Prod.snd).getD "")
    else scanLoop d (i + 1) pending (objects.append o)

/-- The handler `getAllObjects`. -/
def getAllObjects (d : Driver) (c : Collection) (w : ResponseWriter) :
    ResponseWriter × Collection :=
  match d.Find with
  | some msg => (writeError w 500 ("getting objects failed: " ++ msg), c)
  | none =>
    match scanLoop d 0 c Slice.make0 with
    | .error msg => (writeError w 500 ("getting objects failed: " ++ msg), c)
    | .ok objects =>
      let w1 := w.Set "Content-Type" "application/json"
      (encodeSlice w1 objects, c)

/-! ## The router and the reachable states -/

/-- A request as the router of `main` dispatches it: `POST /objects`,
`GET /objects/{id}`, `GET /objects/`, `PUT /objects/{id}`, `DELETE /objects/{id}`. -/
inductive Request where
  | create (oid : ObjectID) (body : Body)
  | get (id : String)
  | getAll
  | update (id : String) (body : Body)
  | delete (id : String)

/-- One request served on a new response writer: the response and the collection
afterwards. -/
def serve (d : Driver) (r : Request) (c : Collection) : ResponseWriter × Collection :=
  match r with
  | .create oid body => createObject d oid body c ResponseWriter.new
  | .get id => getObject d id c ResponseWriter.new
  | .getAll => getAllObjects d c ResponseWriter.new
  | .update id body => updateObject d id body c ResponseWriter.new
  | .delete id => deleteObject d id c ResponseWriter.new

/-- The assumption on minted identifiers: the identifier a create request mints
differs from the `id` of every stored document. Other requests mint nothing. -/
def Fresh (r : Request) (c : Collection) : Prop :=
  match r with
  | .create oid _ => ∀ o ∈ c, o.ID ≠ oid.Hex
  | _ => True

/-- The collections the handlers can produce from the empty one, each create
minting a fresh identifier. -/
inductive Reachable : Collection → Prop where
  | empty : Reachable []
  | step (d : Driver) (r : Request) (c : Collection) :
      Reachable c → Fresh r c → Reachable (serve d r c).2

/-- The id invariant: every stored document has a non-empty `id`, and no two
stored documents share one. -/
def IdInv (c : Collection) : Prop :=
  (∀ o ∈ c, o.ID ≠ "") ∧ (c.map Object.ID).Nodup

instance : DecidablePred IdInv := fun c => by
  unfold IdInv
  infer_instance

/-- The header `Content-Type: application/json` went out with the status line. -/
def SentJSON (w : ResponseWriter) : Prop :=
  ("Content-Type", "application/json") ∈ w.sentHeader

instance : DecidablePred SentJSON := fun w => by
  unfold SentJSON
  infer_instance

/-- Exactly one stored document has the given `id`. -/
def UniqueID (c : Collection) (id : String) : Prop :=
  (c.map Object.ID).count id = 1

instance (c : Collection) (id : String) : Decidable (UniqueID c id) := by
  unfold UniqueID
  infer_instance

/-- The scan of `getAllObjects` succeeds: `Collection.Find` returns a cursor, the
loop decodes every document, and `cursor.Err()` is nil at the end. -/
def ScanSucceeds (d : Driver) (c : Collection) : Prop :=
  d.Find = none ∧ (scanLoop d 0 c Slice.make0).isOk = true

instance (d : Driver) (c : Collection) : Decidable (ScanSucceeds d c) := by
  unfold ScanSucceeds
  infer_instance

/-! ## Sample data -/

/-- A sample document with both fields set. -/
def docAB (id : String) : Object :=
  { ID := id, Name := some "A", Description := some "B" }

/-- A sample identifier: the twelve bytes 0 to 11. -/
def sampleOID : ObjectID :=
  { bytes := [0, 1, 2, 3, 4, 5, 6, 7, 8, 9, 10, 11], size := rfl }


/-! ## Lemmas on the writer, the lookup and the collection calls -/

theorem writeError_new (status : Nat) (s : String) :
    writeError ResponseWriter.new status s =
      { header := [("Content-Type", "application/json")], wroteHeader := true, status := status,
        sentHeader := [], body := marshalError s } := by
  simp [writeError, ResponseWriter.new, ResponseWriter.WriteHeader, ResponseWriter.Set,
    ResponseWriter.Write]

theorem encodeObject_new (o : Object) :
    encodeObject (ResponseWriter.new.Set "Content-Type" "application/json") o =
      { header := [("Content-Type", "application/json")], wroteHeader := true, status := 200,
        sentHeader := [("Content-Type", "application/json")], body := marshalObject o ++ "\n" } := by
  simp [encodeObject, ResponseWriter.new, ResponseWriter.WriteHeader, ResponseWriter.Set,
    ResponseWriter.Write]

theorem encodeSlice_new (s : Slice) :
    encodeSlice (ResponseWriter.new.Set "Content-Type" "application/json") s =
      { header := [("Content-Type", "application/json")], wroteHeader := true, status := 200,
        sentHeader := [("Content-Type", "application/json")], body := marshalSlice s ++ "\n" } := by
  simp [encodeSlice, ResponseWriter.new, ResponseWriter.WriteHeader, ResponseWriter.Set,
    ResponseWriter.Write]

theorem find_none_iff (c : Collection) (id : String) :
    c.find? (fun o => o.ID == id) = none ↔ ∀ o ∈ c, o.ID ≠ id := by
  simp [List.find?_eq_none]

theorem find_some_of_mem (c : Collection) (id : String) (h : ∃ o ∈ c, o.ID = id) :
    ∃ old, c.find? (fun o => o.ID == id) = some old := by
  cases hf : c.find? (fun o => o.ID == id) with
  | some old => exact ⟨old, rfl⟩
  | none =>
    obtain ⟨o, ho, hid⟩ := h
    exact absurd hid ((find_none_iff c id).1 hf o ho)

theorem find_some_id {c : Collection} {id : String} {old : Object}
    (h : c.find? (fun o => o.ID == id) = some old) : old.ID = id := by
  have := List.find?_some h
  simpa using this

theorem getObjectByID_eq (d : Driver) (c : Collection) (id : String) :
    getObjectByID d c id = FindOne d c id := by
  unfold getObjectByID
  cases FindOne d c id <;> rfl

theorem FindOne_missing (d : Driver) (c : Collection) (id : String) (hd : d.FindOne = none)
    (h : ∀ o ∈ c, o.ID ≠ id) : FindOne d c id = .error .ErrNoDocuments := by
  simp [FindOne, hd, (find_none_iff c id).2 h]

theorem FindOne_found (d : Driver) (c : Collection) (id : String) (old : Object)
    (hd : d.FindOne = none) (h : c.find? (fun o => o.ID == id) = some old) :
    FindOne d c id = .ok old := by
  simp [FindOne, hd, h]


/-! ## Not-found and decode failures, error responses -/

/-- C8 (the code at the claim's failing point): for every status and message,
`writeError` on a new writer sends the status line before it sets `Content-Type`, so
the response carries the given status and the body `marshalError s`, the header map
holds `Content-Type: application/json`, and no header went out with the status line:
the response is not sent as `application/json`. The success paths set the header
first and do send it. -/
theorem writeError_content_type_not_sent (status : Nat) (s : String) :
    (writeError ResponseWriter.new status s).status = status ∧
    (writeError ResponseWriter.new status s).body = marshalError s ∧
    (writeError ResponseWriter.new status s).header = [("Content-Type", "application/json")] ∧
    (writeError ResponseWriter.new status s).sentHeader = [] ∧
    ¬ SentJSON (writeError ResponseWriter.new status s) ∧
    (∀ o : Object,
      SentJSON (encodeObject (ResponseWriter.new.Set "Content-Type" "application/json") o)) := by
  simp [writeError_new, encodeObject_new, SentJSON]

/-- C5: when the lookup goes through and the id matches no stored document,
`getObject` answers 404 with the body `{"error":"object not found"}`, `updateObject`
(whatever its request body) 404 with `{"error":"object for update not found"}`, and
`deleteObject` 404 with `{"error":"object for deleting not found"}`; each leaves the
collection as it was. -/
theorem not_found_mapping (d : Driver) (c : Collection) (id : String) (body : Body)
    (hd : d.FindOne = none) (h : ∀ o ∈ c, o.ID ≠ id) :
    ((getObject d id c ResponseWriter.new).1.status = 404 ∧
      (getObject d id c ResponseWriter.new).1.body = "\x7b\"error\":\"object not found\"\x7d" ∧
      (getObject d id c ResponseWriter.new).2 = c) ∧
    ((updateObject d id body c ResponseWriter.new).1.status = 404 ∧
      (updateObject d id body c ResponseWriter.new).1.body =
        "\x7b\"error\":\"object for update not found\"\x7d" ∧
      (updateObject d id body c ResponseWriter.new).2 = c) ∧
    ((deleteObject d id c ResponseWriter.new).1.status = 404 ∧
      (deleteObject d id c ResponseWriter.new).1.body =
        "\x7b\"error\":\"object for deleting not found\"\x7d" ∧
      (deleteObject d id c ResponseWriter.new).2 = c) := by
  have hf := FindOne_missing d c id hd h
  refine ⟨?_, ?_, ?_⟩
  · simp only [getObject, getObjectByID_eq, hf, writeError_new, if_true]
    exact ⟨trivial, by decide, trivial⟩
  · simp only [updateObject, getObjectByID_eq, hf, writeError_new, if_true]
    exact ⟨trivial, by decide, trivial⟩
  · simp only [deleteObject, getObjectByID_eq, hf, writeError_new, if_true]
    exact ⟨trivial, by decide, trivial⟩

/-- C5 at a concrete input: the id `q` in a collection holding only the id `x`. -/
theorem not_found_mapping_witness :
    ((getObject Driver.healthy "q" [docAB "x"] ResponseWriter.new).1.status = 404 ∧
      (getObject Driver.healthy "q" [docAB "x"] ResponseWriter.new).1.body =
        "\x7b\"error\":\"object not found\"\x7d" ∧
      (getObject Driver.healthy "q" [docAB "x"] ResponseWriter.new).2 = [docAB "x"]) ∧
    ((updateObject Driver.healthy "q" (.ok (docAB "")) [docAB "x"] ResponseWriter.new).1.status
        = 404 ∧
      (updateObject Driver.healthy "q" (.ok (docAB "")) [docAB "x"] ResponseWriter.new).1.body =
        "\x7b\"error\":\"object for update not found\"\x7d" ∧
      (updateObject Driver.healthy "q" (.ok (docAB "")) [docAB "x"] ResponseWriter.new).2 =
        [docAB "x"]) ∧
    ((deleteObject Driver.healthy "q" [docAB "x"] ResponseWriter.new).1.status = 404 ∧
      (deleteObject Driver.healthy "q" [docAB "x"] ResponseWriter.new).1.body =
        "\x7b\"error\":\"object for deleting not found\"\x7d" ∧
      (deleteObject Driver.healthy "q" [docAB "x"] ResponseWriter.new).2 = [docAB "x"]) :=
  not_found_mapping Driver.healthy [docAB "x"] "q" (.ok (docAB "")) rfl (by decide)

/-- C7: a request body that fails to decode with message `msg` makes `createObject`
answer 500 with the body `{"error":"object creation failed: msg"}` and leave the
collection as it was; and, when the lookup goes through and finds the id,
`updateObject` answers 500 with `{"error":"object updating failed: msg"}` and leaves
the collection, the stored document with it, as it was. -/
theorem decode_failure_500 (d : Driver) (oid : ObjectID) (msg : String) (c : Collection)
    (x : String) :
    ((createObject d oid (.error msg) c ResponseWriter.new).1.status = 500 ∧
      (createObject d oid (.error msg) c ResponseWriter.new).1.body =
        marshalError ("object creation failed: " ++ msg) ∧
      (createObject d oid (.error msg) c ResponseWriter.new).2 = c) ∧
    (d.FindOne = none → (∃ o ∈ c, o.ID = x) →
      (updateObject d x (.error msg) c ResponseWriter.new).1.status = 500 ∧
      (updateObject d x (.error msg) c ResponseWriter.new).1.body =
        marshalError ("object updating failed: " ++ msg) ∧
      (updateObject d x (.error msg) c ResponseWriter.new).2 = c) := by
  refine ⟨?_, ?_⟩
  · simp [createObject, writeError_new]
  · intro hd hx
    obtain ⟨old, hold⟩ := find_some_of_mem c x hx
    simp [updateObject, getObjectByID_eq, FindOne_found d c x old hd hold, writeError_new]

/-- C7 at a concrete input: the decoder message `EOF`, the id `x` stored. -/
theorem decode_failure_500_witness :
    (updateObject Driver.healthy "x" (.error "EOF") [docAB "x"] ResponseWriter.new).1.status
      = 500 ∧
    (updateObject Driver.healthy "x" (.error "EOF") [docAB "x"] ResponseWriter.new).1.body =
      "\x7b\"error\":\"object updating failed: EOF\"\x7d" ∧
    (updateObject Driver.healthy "x" (.error "EOF") [docAB "x"] ResponseWriter.new).2 =
      [docAB "x"] :=
  (decode_failure_500 Driver.healthy sampleOID "EOF" [docAB "x"] "x").2 rfl
    ⟨docAB "x", by simp, rfl⟩

/-! ## Update -/

theorem setFirst_find (x : String) (n ds : Option String) (c : Collection) (old : Object)
    (h : c.find? (fun o => o.ID == x) = some old) :
    (setFirst x n ds c).find? (fun o => o.ID == x) =
      some { old with Name := n, Description := ds } := by
  induction c with
  | nil => simp at h
  | cons o rest ih =>
    by_cases ho : o.ID = x
    · have : old = o := by simpa [List.find?, ho] using h.symm
      subst this
      simp [setFirst, ho, List.find?]
    · have hb : (o.ID == x) = false := by simp [ho]
      have h2 : rest.find? (fun o => o.ID == x) = some old := by
        rw [List.find?_cons, hb] at h
        exact h
      simp [setFirst, ho, List.find?, ih h2]

theorem setFirst_split (x : String) (n ds : Option String) (c : Collection) (old : Object)
    (h : c.find? (fun o => o.ID == x) = some old) :
    ∃ pre post, c = pre ++ old :: post ∧ (∀ o ∈ pre, o.ID ≠ x) ∧
      setFirst x n ds c = pre ++ { old with Name := n, Description := ds } :: post := by
  induction c with
  | nil => simp at h
  | cons o rest ih =>
    by_cases ho : o.ID = x
    · have : old = o := by simpa [List.find?, ho] using h.symm
      subst this
      exact ⟨[], rest, by simp, by simp, by simp [setFirst, ho]⟩
    · have hb : (o.ID == x) = false := by simp [ho]
      have h2 : rest.find? (fun o => o.ID == x) = some old := by
        rw [List.find?_cons, hb] at h
        exact h
      obtain ⟨pre, post, h1, h3, h4⟩ := ih h2
      refine ⟨o :: pre, post, by simp [h1], ?_, by simp [setFirst, ho, h4]⟩
      intro o' ho'
      rcases List.mem_cons.1 ho' with rfl | hm
      · exact ho
      · exact h3 o' hm

theorem updateObject_ok (d : Driver) (x : String) (u old : Object) (c : Collection)
    (hd : d.FindOne = none) (hu : d.UpdateOne = none)
    (hold : c.find? (fun o => o.ID == x) = some old) :
    updateObject d x (.ok u) c ResponseWriter.new =
      (encodeObject (ResponseWriter.new.Set "Content-Type" "application/json")
          { ID := u.ID, Name := u.Name.orElse fun _ => old.Name,
            Description := u.Description.orElse fun _ => old.Description },
        setFirst x (u.Name.orElse fun _ => old.Name)
          (u.Description.orElse fun _ => old.Description) c) := by
  obtain ⟨uid, un, ud⟩ := u
  cases un <;> cases ud <;>
    simp [updateObject, getObjectByID_eq, FindOne_found d c x old hd hold, UpdateOne, hu]

theorem updateObject_200 (d : Driver) (x : String) (body : Body) (c : Collection)
    (hok : (updateObject d x body c ResponseWriter.new).1.status = 200) :
    d.FindOne = none ∧ d.UpdateOne = none ∧ (∃ u, body = .ok u) ∧
      ∃ old, c.find? (fun o => o.ID == x) = some old := by
  unfold updateObject at hok
  rw [getObjectByID_eq] at hok
  unfold FindOne at hok
  cases hd : d.FindOne with
  | some m => simp [hd, writeError_new] at hok
  | none =>
    cases hf : c.find? (fun o => o.ID == x) with
    | none => simp [hd, hf, writeError_new] at hok
    | some old =>
      cases body with
      | error m => simp [hd, hf, writeError_new] at hok
      | ok u =>
        cases hu : d.UpdateOne with
        | some m => simp [hd, hf, UpdateOne, hu, writeError_new] at hok
        | none => exact ⟨rfl, rfl, ⟨u, rfl⟩, old, rfl⟩

theorem Hex_ne_empty (oid : ObjectID) : oid.Hex ≠ "" := by
  obtain ⟨bytes, size⟩ := oid
  cases bytes with
  | nil => simp at size
  | cons b rest =>
    intro h
    have := congrArg String.data h
    simp [ObjectID.Hex] at this

theorem find_append_fresh (c : Collection) (o : Object) (h : ∀ p ∈ c, p.ID ≠ o.ID) :
    (c ++ [o]).find? (fun p => p.ID == o.ID) = some o := by
  rw [List.find?_append, (find_none_iff c o.ID).2 h]
  simp

/-- C1: when the collection holds a document with the path id and the update
succeeds (the response is 200), the document the lookup finds for that id afterwards
has the body's name if the body carries one (the empty string included) and the name
stored before otherwise, and likewise for the description. -/
theorem updateObject_merge (d : Driver) (x : String) (u : Object) (c : Collection)
    (hx : ∃ o ∈ c, o.ID = x)
    (hok : (updateObject d x (.ok u) c ResponseWriter.new).1.status = 200) :
    ∃ old new, getObjectByID Driver.healthy c x = .ok old ∧
      getObjectByID Driver.healthy (updateObject d x (.ok u) c ResponseWriter.new).2 x =
        .ok new ∧
      (∀ n, u.Name = some n → new.Name = some n) ∧
      (u.Name = none → new.Name = old.Name) ∧
      (∀ s, u.Description = some s → new.Description = some s) ∧
      (u.Description = none → new.Description = old.Description) := by
  obtain ⟨old, hold⟩ := find_some_of_mem c x hx
  obtain ⟨hd, hu, -, -⟩ := updateObject_200 d x (.ok u) c hok
  refine ⟨old, Object.mk old.ID (u.Name.orElse fun _ => old.Name)
    (u.Description.orElse fun _ => old.Description), ?_, ?_, ?_, ?_, ?_, ?_⟩
  · rw [getObjectByID_eq]
    exact FindOne_found _ c x old rfl hold
  · rw [getObjectByID_eq, updateObject_ok d x u old c hd hu hold]
    exact FindOne_found _ _ x _ rfl (setFirst_find x _ _ c old hold)
  · intro n hn
    simp [hn]
  · intro hn
    simp [hn]
  · intro s hs
    simp [hs]
  · intro hs
    simp [hs]

/-- C1 at a concrete input: only the name is sent, the stored description stays. -/
theorem updateObject_merge_witness :
    ∃ old new, getObjectByID Driver.healthy [docAB "x"] "x" = .ok old ∧
      getObjectByID Driver.healthy
        (updateObject Driver.healthy "x" (.ok ⟨"", some "", none⟩) [docAB "x"]
          ResponseWriter.new).2 "x" = .ok new ∧
      (∀ n, (some "" : Option String) = some n → new.Name = some n) ∧
      ((some "" : Option String) = none → new.Name = old.Name) ∧
      (∀ s, (none : Option String) = some s → new.Description = some s) ∧
      ((none : Option String) = none → new.Description = old.Description) :=
  updateObject_merge Driver.healthy "x" ⟨"", some "", none⟩ [docAB "x"]
    ⟨docAB "x", by simp, rfl⟩ (by decide)

/-- C9: when an update on path id `x` succeeds (the response is 200), whatever id the
request body carries, the collection before and after differ in one document only,
the first one whose id is `x`: its id is still `x`, the documents before and after it
are the same, so are all documents whose id is not `x`, and so is the number of
documents. -/
theorem updateObject_frame (d : Driver) (x : String) (u : Object) (docs : Collection)
    (hok : (updateObject d x (.ok u) docs ResponseWriter.new).1.status = 200) :
    (∃ pre old post new, docs = pre ++ old :: post ∧ (∀ o ∈ pre, o.ID ≠ x) ∧ old.ID = x ∧
      (updateObject d x (.ok u) docs ResponseWriter.new).2 = pre ++ new :: post ∧ new.ID = x) ∧
    (updateObject d x (.ok u) docs ResponseWriter.new).2.length = docs.length ∧
    (∀ (i : Nat) (o : Object), docs[i]? = some o → o.ID ≠ x →
      (updateObject d x (.ok u) docs ResponseWriter.new).2[i]? = some o) := by
  obtain ⟨hd, hu, -, old, hold⟩ := updateObject_200 d x (.ok u) docs hok
  obtain ⟨pre, post, hc, hpre, hset⟩ :=
    setFirst_split x (u.Name.orElse fun _ => old.Name)
      (u.Description.orElse fun _ => old.Description) docs old hold
  have hid := find_some_id hold
  rw [updateObject_ok d x u old docs hd hu hold]
  simp only [hset]
  refine ⟨⟨pre, old, post, _, hc, hpre, hid, rfl, hid⟩, ?_, ?_⟩
  · simp [hc]
  · intro i o hi ho
    rw [hc] at hi
    rcases Nat.lt_or_ge i pre.length with hlt | hge
    · rw [List.getElem?_append_left hlt] at hi ⊢
      exact hi
    · rw [List.getElem?_append_right hge] at hi ⊢
      cases hk : i - pre.length with
      | zero =>
        rw [hk, List.getElem?_cons_zero] at hi
        exact absurd hid (Option.some.inj hi ▸ ho)
      | succ k =>
        rw [hk, List.getElem?_cons_succ] at hi
        rw [List.getElem?_cons_succ]
        exact hi

/-- C9 at a concrete input: the body carries the id `other`, the path id is `x`. -/
theorem updateObject_frame_witness :
    (∃ pre old post new, [docAB "w", docAB "x", docAB "y"] = pre ++ old :: post ∧
      (∀ o ∈ pre, o.ID ≠ "x") ∧ old.ID = "x" ∧
      (updateObject Driver.healthy "x" (.ok ⟨"other", some "C", none⟩)
        [docAB "w", docAB "x", docAB "y"] ResponseWriter.new).2 = pre ++ new :: post ∧
      new.ID = "x") ∧
    (updateObject Driver.healthy "x" (.ok ⟨"other", some "C", none⟩)
      [docAB "w", docAB "x", docAB "y"] ResponseWriter.new).2.length =
        [docAB "w", docAB "x", docAB "y"].length ∧
    (∀ (i : Nat) (o : Object), [docAB "w", docAB "x", docAB "y"][i]? = some o → o.ID ≠ "x" →
      (updateObject Driver.healthy "x" (.ok ⟨"other", some "C", none⟩)
        [docAB "w", docAB "x", docAB "y"] ResponseWriter.new).2[i]? = some o) :=
  updateObject_frame Driver.healthy "x" ⟨"other", some "C", none⟩
    [docAB "w", docAB "x", docAB "y"] (by decide)

/-- C6 (the code at the claim's failing input): the document `x` is stored with name
`A` and description `B`, and the body `{"name":"C"}` is put to path id `x`. The update
succeeds with 200; the response body is the object `{"name":"C","description":"B"}`,
with the body's (empty) id, while the lookup of `x` afterwards returns the object with
id `x`, whose JSON text is `{"id":"x","name":"C","description":"B"}`. -/
theorem updateObject_response_id_differs :
    (updateObject Driver.healthy "x" (.ok ⟨"", some "C", none⟩) [docAB "x"]
      ResponseWriter.new).1.status = 200 ∧
    (updateObject Driver.healthy "x" (.ok ⟨"", some "C", none⟩) [docAB "x"]
      ResponseWriter.new).1.body = "\x7b\"name\":\"C\",\"description\":\"B\"\x7d\n" ∧
    (updateObject Driver.healthy "x" (.ok ⟨"", some "C", none⟩) [docAB "x"]
      ResponseWriter.new).1.body = marshalObject ⟨"", some "C", some "B"⟩ ++ "\n" ∧
    getObjectByID Driver.healthy
      (updateObject Driver.healthy "x" (.ok ⟨"", some "C", none⟩) [docAB "x"]
        ResponseWriter.new).2 "x" = .ok ⟨"x", some "C", some "B"⟩ ∧
    marshalObject ⟨"x", some "C", some "B"⟩ =
      "\x7b\"id\":\"x\",\"name\":\"C\",\"description\":\"B\"\x7d" :=
  ⟨by decide, by decide, by decide, by rfl, by decide⟩

/-- C2: when the insert goes through and the minted id matches no stored document,
`createObject` on a body that decodes to `u` answers 200 with the JSON text of the
object that has the minted id (never empty; an id in the body is overwritten) and the
name and description of `u`, sent as `application/json`; that object is stored as the
last document, and every later lookup of the minted id that goes through returns it. -/
theorem createObject_round_trip (d : Driver) (oid : ObjectID) (u : Object) (c : Collection)
    (hins : d.InsertOne = none) (hfresh : ∀ o ∈ c, o.ID ≠ oid.Hex) :
    oid.Hex ≠ "" ∧
    (createObject d oid (.ok u) c ResponseWriter.new).1.status = 200 ∧
    (createObject d oid (.ok u) c ResponseWriter.new).1.body =
      marshalObject { ID := oid.Hex, Name := u.Name, Description := u.Description } ++ "\n" ∧
    SentJSON (createObject d oid (.ok u) c ResponseWriter.new).1 ∧
    (createObject d oid (.ok u) c ResponseWriter.new).2 =
      c ++ [{ ID := oid.Hex, Name := u.Name, Description := u.Description }] ∧
    ∀ d2 : Driver, d2.FindOne = none →
      getObjectByID d2 (createObject d oid (.ok u) c ResponseWriter.new).2 oid.Hex =
        .ok { ID := oid.Hex, Name := u.Name, Description := u.Description } := by
  have hcreate : createObject d oid (.ok u) c ResponseWriter.new =
      (encodeObject (ResponseWriter.new.Set "Content-Type" "application/json")
        { ID := oid.Hex, Name := u.Name, Description := u.Description },
       c ++ [{ ID := oid.Hex, Name := u.Name, Description := u.Description }]) := by
    simp [createObject, InsertOne, hins]
  rw [hcreate, encodeObject_new]
  refine ⟨Hex_ne_empty oid, rfl, rfl, by simp [SentJSON], rfl, ?_⟩
  intro d2 hd2
  rw [getObjectByID_eq]
  exact FindOne_found d2 _ _ _ hd2
    (find_append_fresh c { ID := oid.Hex, Name := u.Name, Description := u.Description } hfresh)

/-- C2 at a concrete input: the body carries the id `mine`, one document is stored. -/
theorem createObject_round_trip_witness :
    sampleOID.Hex ≠ "" ∧
    (createObject Driver.healthy sampleOID (.ok (docAB "mine")) [docAB "x"]
      ResponseWriter.new).1.status = 200 ∧
    (createObject Driver.healthy sampleOID (.ok (docAB "mine")) [docAB "x"]
      ResponseWriter.new).1.body =
      marshalObject { ID := sampleOID.Hex, Name := (docAB "mine").Name,
                      Description := (docAB "mine").Description } ++ "\n" ∧
    SentJSON (createObject Driver.healthy sampleOID (.ok (docAB "mine")) [docAB "x"]
      ResponseWriter.new).1 ∧
    (createObject Driver.healthy sampleOID (.ok (docAB "mine")) [docAB "x"]
      ResponseWriter.new).2 =
      [docAB "x"] ++ [{ ID := sampleOID.Hex, Name := (docAB "mine").Name,
                        Description := (docAB "mine").Description }] ∧
    ∀ d2 : Driver, d2.FindOne = none →
      getObjectByID d2 (createObject Driver.healthy sampleOID (.ok (docAB "mine")) [docAB "x"]
        ResponseWriter.new).2 sampleOID.Hex =
        .ok { ID := sampleOID.Hex, Name := (docAB "mine").Name,
              Description := (docAB "mine").Description } :=
  createObject_round_trip Driver.healthy sampleOID (docAB "mine") [docAB "x"] rfl (by decide)

/-! ## Delete and get-all -/

theorem deleteFirst_count (x : String) (c : Collection) :
    ((deleteFirst x c).map Object.ID).count x = (c.map Object.ID).count x - 1 := by
  induction c with
  | nil => simp [deleteFirst]
  | cons o rest ih =>
    by_cases ho : o.ID = x
    · simp [deleteFirst, ho]
    · have hne : (o.ID == x) = false := by simp [ho]
      simp [deleteFirst, ho, List.count_cons, hne, ih]

theorem not_mem_of_count_zero (x : String) (c : Collection)
    (h : (c.map Object.ID).count x = 0) : ∀ o ∈ c, o.ID ≠ x := by
  intro o ho hid
  have hm : x ∈ c.map Object.ID := List.mem_map.2 ⟨o, ho, hid⟩
  have := List.count_pos_iff.2 hm
  omega

theorem mem_of_UniqueID (c : Collection) (x : String) (h : UniqueID c x) :
    ∃ o ∈ c, o.ID = x := by
  have hm : x ∈ c.map Object.ID := List.count_pos_iff.1 (by unfold UniqueID at h; omega)
  obtain ⟨o, ho, hid⟩ := List.mem_map.1 hm
  exact ⟨o, ho, hid⟩

theorem deleteObject_ok (d : Driver) (x : String) (c : Collection) (old : Object)
    (hd : d.FindOne = none) (hdel : d.DeleteOne = none)
    (hold : c.find? (fun o => o.ID == x) = some old) :
    deleteObject d x c ResponseWriter.new =
      ({ header := [], wroteHeader := true, status := 200, sentHeader := [],
         body := "object deleted successfully" }, deleteFirst x c) := by
  simp [deleteObject, getObjectByID_eq, FindOne_found d c x old hd hold, DeleteOne, hdel,
    ResponseWriter.new, ResponseWriter.WriteHeader, ResponseWriter.Write]

/-- C3 (as stated, refuted): two stored documents share the id `a`. The delete of `a`
answers 200 with the body `object deleted successfully`, and the lookup of `a`
afterwards still returns a document: not the not-found condition. -/
theorem deleteObject_duplicate_id_remains :
    (∃ o ∈ [docAB "a", ⟨"a", none, none⟩], o.ID = "a") ∧
    (deleteObject Driver.healthy "a" [docAB "a", ⟨"a", none, none⟩]
      ResponseWriter.new).1.status = 200 ∧
    (deleteObject Driver.healthy "a" [docAB "a", ⟨"a", none, none⟩]
      ResponseWriter.new).1.body = "object deleted successfully" ∧
    getObjectByID Driver.healthy
      (deleteObject Driver.healthy "a" [docAB "a", ⟨"a", none, none⟩]
        ResponseWriter.new).2 "a" = .ok ⟨"a", none, none⟩ ∧
    getObjectByID Driver.healthy
      (deleteObject Driver.healthy "a" [docAB "a", ⟨"a", none, none⟩]
        ResponseWriter.new).2 "a" ≠ .error .ErrNoDocuments :=
  ⟨⟨docAB "a", by simp, rfl⟩, by decide, by decide, by rfl, by
    intro h
    cases h⟩

/-- C3 (amended): when the lookup and the delete go through and exactly one stored
document has id `x`, `deleteObject` for `x` answers 200 with the plain-text body
`object deleted successfully` (no JSON content type), and every later lookup of `x`
that goes through returns `mongo.ErrNoDocuments`. -/
theorem deleteObject_then_lookup (d : Driver) (c : Collection) (x : String)
    (hd : d.FindOne = none) (hdel : d.DeleteOne = none) (hu : UniqueID c x) :
    (deleteObject d x c ResponseWriter.new).1.status = 200 ∧
    (deleteObject d x c ResponseWriter.new).1.body = "object deleted successfully" ∧
    ¬ SentJSON (deleteObject d x c ResponseWriter.new).1 ∧
    ∀ d2 : Driver, d2.FindOne = none →
      getObjectByID d2 (deleteObject d x c ResponseWriter.new).2 x =
        .error .ErrNoDocuments := by
  obtain ⟨old, hold⟩ := find_some_of_mem c x (mem_of_UniqueID c x hu)
  rw [deleteObject_ok d x c old hd hdel hold]
  refine ⟨rfl, rfl, by simp [SentJSON], ?_⟩
  intro d2 hd2
  rw [getObjectByID_eq]
  apply FindOne_missing d2 _ x hd2
  apply not_mem_of_count_zero
  rw [deleteFirst_count]
  unfold UniqueID at hu
  omega

/-- C3 (amended) at a concrete input: the id `x` among three distinct ids. -/
theorem deleteObject_then_lookup_witness :
    (deleteObject Driver.healthy "x" [docAB "w", docAB "x", docAB "y"]
      ResponseWriter.new).1.status = 200 ∧
    (deleteObject Driver.healthy "x" [docAB "w", docAB "x", docAB "y"]
      ResponseWriter.new).1.body = "object deleted successfully" ∧
    ¬ SentJSON (deleteObject Driver.healthy "x" [docAB "w", docAB "x", docAB "y"]
      ResponseWriter.new).1 ∧
    ∀ d2 : Driver, d2.FindOne = none →
      getObjectByID d2 (deleteObject Driver.healthy "x" [docAB "w", docAB "x", docAB "y"]
        ResponseWriter.new).2 "x" = .error .ErrNoDocuments :=
  deleteObject_then_lookup Driver.healthy [docAB "w", docAB "x", docAB "y"] "x" rfl rfl
    (by decide)

theorem scanLoop_ok (d : Driver) (pending : List Object) :
    ∀ (i : Nat) (acc : List Object) (r : Slice),
      scanLoop d i pending (some acc) = .ok r → r = some (acc ++ pending) := by
  induction pending with
  | nil =>
    intro i acc r h
    unfold scanLoop at h
    split at h
    · split at h
      · cases h
      · cases h
        simp
    · cases h
      simp
  | cons o rest ih =>
    intro i acc r h
    unfold scanLoop at h
    split at h
    · cases h
    · split at h
      · cases h
      · have := ih (i + 1) (acc ++ [o]) r h
        simpa using this

theorem scanLoop_healthy (pending : List Object) :
    ∀ (i : Nat) (acc : Slice),
      (scanLoop Driver.healthy i pending acc).isOk = true := by
  induction pending with
  | nil =>
    intro i acc
    simp [scanLoop, Driver.healthy, Except.isOk, Except.toBool]
  | cons o rest ih =>
    intro i acc
    simpa [scanLoop, Driver.healthy] using ih (i + 1) (acc.append o)

theorem ScanSucceeds_healthy (c : Collection) : ScanSucceeds Driver.healthy c :=
  ⟨rfl, scanLoop_healthy c 0 Slice.make0⟩

theorem getAllObjects_snd (d : Driver) (c : Collection) (w : ResponseWriter) :
    (getAllObjects d c w).2 = c := by
  unfold getAllObjects
  split
  · rfl
  · split <;> rfl

theorem marshalSlice_ne_null (l : List Object) : marshalSlice (some l) ++ "\n" ≠ "null\n" := by
  intro h
  have := congrArg String.data h
  simp [marshalSlice] at this

/-- C4: when the scan succeeds, `getAllObjects` answers 200, sent as
`application/json`, with the JSON array of the stored documents, each once and in scan
order, and a line feed; the collection is as it was; for the empty collection the
body is `[]` and a line feed; and the body is never `null`. -/
theorem getAllObjects_complete (d : Driver) (c : Collection) (hscan : ScanSucceeds d c) :
    (getAllObjects d c ResponseWriter.new).1.status = 200 ∧
    (getAllObjects d c ResponseWriter.new).1.body = marshalSlice (some c) ++ "\n" ∧
    marshalSlice (some c) = "[" ++ ",".intercalate (c.map marshalObject) ++ "]" ∧
    SentJSON (getAllObjects d c ResponseWriter.new).1 ∧
    (getAllObjects d c ResponseWriter.new).2 = c ∧
    (c = [] → (getAllObjects d c ResponseWriter.new).1.body = "[]\n") ∧
    (getAllObjects d c ResponseWriter.new).1.body ≠ "null\n" := by
  obtain ⟨hfind, hloop⟩ := hscan
  have hbody : getAllObjects d c ResponseWriter.new =
      (encodeSlice (ResponseWriter.new.Set "Content-Type" "application/json") (some c), c) := by
    cases hs : scanLoop d 0 c Slice.make0 with
    | error m => simp [hs, Except.isOk, Except.toBool] at hloop
    | ok r =>
      have hr := scanLoop_ok d c 0 [] r hs
      simp at hr
      subst hr
      simp [getAllObjects, hfind, hs]
  rw [hbody, encodeSlice_new]
  refine ⟨rfl, rfl, rfl, by simp [SentJSON], rfl, ?_, marshalSlice_ne_null c⟩
  intro hc
  subst hc
  decide

/-- C4 at a concrete input: two stored documents, a driver without errors. -/
theorem getAllObjects_complete_witness :
    (getAllObjects Driver.healthy [docAB "x", ⟨"y", none, some ""⟩]
      ResponseWriter.new).1.status = 200 ∧
    (getAllObjects Driver.healthy [docAB "x", ⟨"y", none, some ""⟩]
      ResponseWriter.new).1.body =
        "[\x7b\"id\":\"x\",\"name\":\"A\",\"description\":\"B\"\x7d," ++
        "\x7b\"id\":\"y\",\"description\":\"\"\x7d]\n" ∧
    (getAllObjects Driver.healthy [docAB "x", ⟨"y", none, some ""⟩]
      ResponseWriter.new).2 = [docAB "x", ⟨"y", none, some ""⟩] :=
  have h := getAllObjects_complete Driver.healthy [docAB "x", ⟨"y", none, some ""⟩]
    (by decide)
  ⟨h.1, h.2.1.trans (by decide), h.2.2.2.2.1⟩

/-! ## The id invariant -/

theorem setFirst_ids (x : String) (n ds : Option String) (c : Collection) :
    (setFirst x n ds c).map Object.ID = c.map Object.ID := by
  induction c with
  | nil => rfl
  | cons o rest ih =>
    by_cases ho : o.ID = x
    · simp [setFirst, ho]
    · simp [setFirst, ho, ih]

theorem deleteFirst_sublist (x : String) (c : Collection) :
    (deleteFirst x c).Sublist c := by
  induction c with
  | nil => simp [deleteFirst]
  | cons o rest ih =>
    by_cases ho : o.ID = x
    · simp [deleteFirst, ho]
    · simpa [deleteFirst, ho] using ih

theorem IdInv_of_ids (c c2 : Collection) (h : c2.map Object.ID = c.map Object.ID)
    (hc : IdInv c) : IdInv c2 := by
  refine ⟨?_, h ▸ hc.2⟩
  intro o ho hid
  have hm : o.ID ∈ c.map Object.ID := h ▸ List.mem_map.2 ⟨o, ho, rfl⟩
  obtain ⟨p, hp, hpid⟩ := List.mem_map.1 hm
  exact hc.1 p hp (hpid.trans hid)

theorem IdInv_sublist (c c2 : Collection) (h : c2.Sublist c) (hc : IdInv c) : IdInv c2 :=
  ⟨fun o ho => hc.1 o (h.subset ho), hc.2.sublist (h.map Object.ID)⟩

theorem IdInv_append (c : Collection) (o : Object) (hne : o.ID ≠ "")
    (hfresh : ∀ p ∈ c, p.ID ≠ o.ID) (hc : IdInv c) : IdInv (c ++ [o]) := by
  refine ⟨?_, ?_⟩
  · intro p hp
    rcases List.mem_append.1 hp with h | h
    · exact hc.1 p h
    · simp at h
      subst h
      exact hne
  · rw [List.map_append, List.nodup_append]
    refine ⟨hc.2, by simp, ?_⟩
    intro a ha hb
    simp at hb
    subst hb
    obtain ⟨p, hp, hpid⟩ := List.mem_map.1 ha
    exact hfresh p hp hpid

theorem createObject_snd (d : Driver) (oid : ObjectID) (body : Body) (c : Collection)
    (w : ResponseWriter) :
    (createObject d oid body c w).2 = c ∨
      ∃ u : Object, (createObject d oid body c w).2 = c ++ [{ u with ID := oid.Hex }] := by
  unfold createObject
  cases body with
  | error m => exact Or.inl rfl
  | ok u =>
    cases hi : d.InsertOne with
    | some m => simp [InsertOne, hi]
    | none => exact Or.inr ⟨u, by simp [InsertOne, hi]⟩

theorem getObject_snd (d : Driver) (x : String) (c : Collection) (w : ResponseWriter) :
    (getObject d x c w).2 = c := by
  unfold getObject
  split
  · split <;> rfl
  · rfl

theorem updateObject_snd (d : Driver) (x : String) (body : Body) (c : Collection)
    (w : ResponseWriter) :
    (updateObject d x body c w).2 = c ∨
      ∃ n ds, (updateObject d x body c w).2 = setFirst x n ds c := by
  unfold updateObject
  cases getObjectByID d c x with
  | error err =>
    by_cases h : err = .ErrNoDocuments <;> simp [h]
  | ok cur =>
    cases body with
    | error m => exact Or.inl rfl
    | ok u =>
      cases hu : d.UpdateOne with
      | some m => simp [UpdateOne, hu]
      | none =>
        simp only [UpdateOne, hu]
        exact Or.inr ⟨_, _, rfl⟩

theorem deleteObject_snd (d : Driver) (x : String) (c : Collection) (w : ResponseWriter) :
    (deleteObject d x c w).2 = c ∨ (deleteObject d x c w).2 = deleteFirst x c := by
  unfold deleteObject
  split
  · split <;> exact Or.inl rfl
  · split
    · exact Or.inl rfl
    · rename_i c1 h
      unfold DeleteOne at h
      split at h
      · cases h
      · cases h
        exact Or.inr rfl

theorem serve_IdInv (d : Driver) (r : Request) (c : Collection) (hc : IdInv c)
    (hfresh : Fresh r c) : IdInv (serve d r c).2 := by
  cases r with
  | create oid body =>
    rcases createObject_snd d oid body c ResponseWriter.new with h | ⟨u, h⟩
    · simp only [serve, h]
      exact hc
    · simp only [serve, h]
      exact IdInv_append c _ (Hex_ne_empty oid) hfresh hc
  | get id =>
    simp only [serve, getObject_snd]
    exact hc
  | getAll =>
    simp only [serve, getAllObjects_snd]
    exact hc
  | update id body =>
    rcases updateObject_snd d id body c ResponseWriter.new with h | ⟨n, ds, h⟩
    · simp only [serve, h]
      exact hc
    · simp only [serve, h]
      exact IdInv_of_ids c _ (setFirst_ids id n ds c) hc
  | delete id =>
    rcases deleteObject_snd d id c ResponseWriter.new with h | h
    · simp only [serve, h]
      exact hc
    · simp only [serve, h]
      exact IdInv_sublist c _ (deleteFirst_sublist id c) hc

/-- C10: the id invariant (every stored document has a non-empty id, no two share
one) is kept by every handler on every request, whatever the driver does, as long as
the id a create mints differs from every stored id (a minted id is never empty); so
it holds in every collection reachable from the empty one through the handlers. -/
theorem id_invariant :
    (∀ (d : Driver) (r : Request) (c : Collection),
      IdInv c → Fresh r c → IdInv (serve d r c).2) ∧
    (∀ c : Collection, Reachable c → IdInv c) := by
  refine ⟨serve_IdInv, ?_⟩
  intro c hr
  induction hr with
  | empty => exact ⟨by simp, by simp⟩
  | step d r c _ hfresh ih => exact serve_IdInv d r c ih hfresh

/-- C10 at a concrete input: a create and then an update, from the empty collection. -/
theorem id_invariant_witness :
    IdInv (serve Driver.healthy (.update sampleOID.Hex (.ok ⟨"other", none, some "D"⟩))
      (serve Driver.healthy (.create sampleOID (.ok (docAB "mine"))) []).2).2 :=
  id_invariant.2 _
    (Reachable.step _ _ _ (Reachable.step _ _ _ Reachable.empty (by simp [Fresh])) trivial)

end Crud
